import Mathlib

/-!
Shallow embedding of `scripts/generate_report.py` (madmatt/covid19-response-tracking).

Conventions of the embedding:
* Calendar dates are modelled as natural day numbers; ISO `YYYY-MM-DD` strings
  sort lexicographically exactly as their dates sort chronologically, so the
  Python sort on date strings is the numeric sort here.
* Lighthouse floating point scores are modelled as rationals.
* A Python `dict` built by inserting keys in a loop is modelled as an
  association list in insertion order, and `dict.values()` as the list of
  second components.
* A value that may be Python `None` is an `Option`.
* A Python function that may raise is an `Except PyErr` (or `Option` where
  only an index error on an empty list can occur).
* `sorted(...)` is Python's stable sort; it is modelled by a stable insertion
  sort (`sortAscBy` / `sortDescBy`, the latter for `reverse=True`, which in
  CPython also keeps equal elements in their original order).
-/

/-- The Python exceptions the modelled code can raise. -/
inductive PyErr where
  | keyError : String → PyErr
  | valueError : String → PyErr
  | nameError : String → PyErr
  deriving DecidableEq

/-- Stable insertion (ascending by `key`): an element inserted from the left of
the input is placed before every element of equal key. -/
def insertAscBy {α β : Type} [LinearOrder β] (key : α → β) (x : α) : List α → List α
  | [] => [x]
  | y :: ys => if key x ≤ key y then x :: y :: ys else y :: insertAscBy key x ys

/-- Stable sort ascending by `key`, modelling Python `sorted(l, key=key)`. -/
def sortAscBy {α β : Type} [LinearOrder β] (key : α → β) (l : List α) : List α :=
  l.foldr (insertAscBy key) []

/-- Stable insertion (descending by `key`). -/
def insertDescBy {α β : Type} [LinearOrder β] (key : α → β) (x : α) : List α → List α
  | [] => [x]
  | y :: ys => if key y ≤ key x then x :: y :: ys else y :: insertDescBy key x ys

/-- Stable sort descending by `key`, modelling `sorted(l, key=key, reverse=True)`. -/
def sortDescBy {α β : Type} [LinearOrder β] (key : α → β) (l : List α) : List α :=
  l.foldr (insertDescBy key) []

theorem insertAscBy_cons {α β : Type} [LinearOrder β] (key : α → β) (x y : α) (ys : List α) :
    insertAscBy key x (y :: ys) =
      if key x ≤ key y then x :: y :: ys else y :: insertAscBy key x ys := rfl

theorem insertDescBy_cons {α β : Type} [LinearOrder β] (key : α → β) (x y : α) (ys : List α) :
    insertDescBy key x (y :: ys) =
      if key y ≤ key x then x :: y :: ys else y :: insertDescBy key x ys := rfl

theorem insertAscBy_perm {α β : Type} [LinearOrder β] (key : α → β) (x : α) (l : List α) :
    (insertAscBy key x l).Perm (x :: l) := by
  induction l with
  | nil => simp [insertAscBy]
  | cons y ys ih =>
    by_cases h : key x ≤ key y
    · simp [insertAscBy, h]
    · simpa [insertAscBy, h] using ((ih.cons y).trans (List.Perm.swap x y ys))

theorem sortAscBy_perm {α β : Type} [LinearOrder β] (key : α → β) (l : List α) :
    (sortAscBy key l).Perm l := by
  induction l with
  | nil => simp [sortAscBy]
  | cons y ys ih =>
    exact (insertAscBy_perm key y (sortAscBy key ys)).trans (ih.cons y)

theorem insertDescBy_perm {α β : Type} [LinearOrder β] (key : α → β) (x : α) (l : List α) :
    (insertDescBy key x l).Perm (x :: l) := by
  induction l with
  | nil => simp [insertDescBy]
  | cons y ys ih =>
    by_cases h : key y ≤ key x
    · simp [insertDescBy, h]
    · simpa [insertDescBy, h] using ((ih.cons y).trans (List.Perm.swap x y ys))

theorem sortDescBy_perm {α β : Type} [LinearOrder β] (key : α → β) (l : List α) :
    (sortDescBy key l).Perm l := by
  induction l with
  | nil => simp [sortDescBy]
  | cons y ys ih =>
    exact (insertDescBy_perm key y (sortDescBy key ys)).trans (ih.cons y)

theorem insertAscBy_pairwise {α β : Type} [LinearOrder β] (key : α → β) (x : α) (l : List α)
    (h : l.Pairwise (fun a b => key a ≤ key b)) :
    (insertAscBy key x l).Pairwise (fun a b => key a ≤ key b) := by
  induction l with
  | nil => simp [insertAscBy]
  | cons y ys ih =>
    rcases List.pairwise_cons.mp h with ⟨hy, hys⟩
    by_cases hxy : key x ≤ key y
    · rw [insertAscBy_cons, if_pos hxy]
      refine List.pairwise_cons.mpr ⟨?_, h⟩
      intro b hb
      rcases List.mem_cons.mp hb with hb | hb
      · exact hb ▸ hxy
      · exact hxy.trans (hy b hb)
    · rw [insertAscBy_cons, if_neg hxy]
      refine List.pairwise_cons.mpr ⟨?_, ih hys⟩
      intro b hb
      rcases List.mem_cons.mp ((insertAscBy_perm key x ys).mem_iff.mp hb) with hb | hb
      · exact hb ▸ (le_of_not_le hxy)
      · exact hy b hb

theorem sortAscBy_pairwise {α β : Type} [LinearOrder β] (key : α → β) (l : List α) :
    (sortAscBy key l).Pairwise (fun a b => key a ≤ key b) := by
  induction l with
  | nil => simp [sortAscBy]
  | cons y ys ih => exact insertAscBy_pairwise key y (sortAscBy key ys) ih

theorem insertDescBy_pairwise {α β : Type} [LinearOrder β] (key : α → β) (x : α) (l : List α)
    (h : l.Pairwise (fun a b => key b ≤ key a)) :
    (insertDescBy key x l).Pairwise (fun a b => key b ≤ key a) := by
  induction l with
  | nil => simp [insertDescBy]
  | cons y ys ih =>
    rcases List.pairwise_cons.mp h with ⟨hy, hys⟩
    by_cases hxy : key y ≤ key x
    · rw [insertDescBy_cons, if_pos hxy]
      refine List.pairwise_cons.mpr ⟨?_, h⟩
      intro b hb
      rcases List.mem_cons.mp hb with hb | hb
      · exact hb ▸ hxy
      · exact (hy b hb).trans hxy
    · rw [insertDescBy_cons, if_neg hxy]
      refine List.pairwise_cons.mpr ⟨?_, ih hys⟩
      intro b hb
      rcases List.mem_cons.mp ((insertDescBy_perm key x ys).mem_iff.mp hb) with hb | hb
      · exact hb ▸ (le_of_not_le hxy)
      · exact hy b hb

theorem sortDescBy_pairwise {α β : Type} [LinearOrder β] (key : α → β) (l : List α) :
    (sortDescBy key l).Pairwise (fun a b => key b ≤ key a) := by
  induction l with
  | nil => simp [sortDescBy]
  | cons y ys ih => exact insertDescBy_pairwise key y (sortDescBy key ys) ih

theorem insertAscBy_filter_key_eq {α β : Type} [LinearOrder β] (key : α → β) (x : α)
    (l : List α) (v : β) (hx : key x = v) :
    (insertAscBy key x l).filter (fun a => key a = v) =
      x :: l.filter (fun a => key a = v) := by
  induction l with
  | nil => simp [insertAscBy, hx]
  | cons y ys ih =>
    by_cases hxy : key x ≤ key y
    · rw [insertAscBy_cons, if_pos hxy]
      simp [List.filter_cons, hx]
    · have hyv : ¬ (key y = v) := ne_of_lt (hx ▸ lt_of_not_le hxy)
      rw [insertAscBy_cons, if_neg hxy]
      simp [List.filter_cons, hyv, ih]

theorem insertAscBy_filter_key_ne {α β : Type} [LinearOrder β] (key : α → β) (x : α)
    (l : List α) (v : β) (hx : ¬ (key x = v)) :
    (insertAscBy key x l).filter (fun a => key a = v) =
      l.filter (fun a => key a = v) := by
  induction l with
  | nil => simp [insertAscBy, hx]
  | cons y ys ih =>
    by_cases hxy : key x ≤ key y
    · rw [insertAscBy_cons, if_pos hxy]
      simp [List.filter_cons, hx]
    · rw [insertAscBy_cons, if_neg hxy]
      by_cases hyv : key y = v
      · simp [List.filter_cons, hyv, ih]
      · simp [List.filter_cons, hyv, ih]

theorem sortAscBy_filter {α β : Type} [LinearOrder β] (key : α → β) (l : List α) (v : β) :
    (sortAscBy key l).filter (fun a => key a = v) = l.filter (fun a => key a = v) := by
  induction l with
  | nil => simp [sortAscBy]
  | cons y ys ih =>
    show (insertAscBy key y (sortAscBy key ys)).filter (fun a => key a = v) = _
    by_cases hy : key y = v
    · rw [insertAscBy_filter_key_eq key y _ v hy, ih]
      simp [hy]
    · rw [insertAscBy_filter_key_ne key y _ v hy, ih]
      simp [hy]

theorem insertDescBy_filter_key_eq {α β : Type} [LinearOrder β] (key : α → β) (x : α)
    (l : List α) (v : β) (hx : key x = v) :
    (insertDescBy key x l).filter (fun a => key a = v) =
      x :: l.filter (fun a => key a = v) := by
  induction l with
  | nil => simp [insertDescBy, hx]
  | cons y ys ih =>
    by_cases hxy : key y ≤ key x
    · rw [insertDescBy_cons, if_pos hxy]
      simp [List.filter_cons, hx]
    · have hyv : ¬ (key y = v) := ne_of_gt (hx ▸ lt_of_not_le hxy)
      rw [insertDescBy_cons, if_neg hxy]
      simp [List.filter_cons, hyv, ih]

theorem insertDescBy_filter_key_ne {α β : Type} [LinearOrder β] (key : α → β) (x : α)
    (l : List α) (v : β) (hx : ¬ (key x = v)) :
    (insertDescBy key x l).filter (fun a => key a = v) =
      l.filter (fun a => key a = v) := by
  induction l with
  | nil => simp [insertDescBy, hx]
  | cons y ys ih =>
    by_cases hxy : key y ≤ key x
    · rw [insertDescBy_cons, if_pos hxy]
      simp [List.filter_cons, hx]
    · rw [insertDescBy_cons, if_neg hxy]
      by_cases hyv : key y = v
      · simp [List.filter_cons, hyv, ih]
      · simp [List.filter_cons, hyv, ih]

theorem sortDescBy_filter {α β : Type} [LinearOrder β] (key : α → β) (l : List α) (v : β) :
    (sortDescBy key l).filter (fun a => key a = v) = l.filter (fun a => key a = v) := by
  induction l with
  | nil => simp [sortDescBy]
  | cons y ys ih =>
    show (insertDescBy key y (sortDescBy key ys)).filter (fun a => key a = v) = _
    by_cases hy : key y = v
    · rw [insertDescBy_filter_key_eq key y _ v hy, ih]
      simp [hy]
    · rw [insertDescBy_filter_key_ne key y _ v hy, ih]
      simp [hy]

/-! ## Data model -/

/-- One lighthouse report for one date: `categories.accessibility.score` and
`categories.performance.score`. A `none` score models JSON `null` (or a missing
`score` entry) inside an existing report. -/
structure Snapshot where
  accessibility : Option ℚ
  speed : Option ℚ
  deriving DecidableEq

/-- The result of `extract_scores`: a dict from date to score per metric, in
date order (`{'accessibility': {...}, 'speed': {...}}`). -/
structure Extracted where
  accessibility : List (Nat × Option ℚ)
  speed : List (Nat × Option ℚ)
  deriving DecidableEq

/-- The dict produced by `calculate_scores`.  An outer `none` models a key that
is not present in the dict at all; `current_*` is doubly optional because the
stored current score can itself be `None`. -/
structure Calcs where
  max_accessibility : Option ℚ := none
  average_accessibility : Option ℚ := none
  current_accessibility : Option (Option ℚ) := none
  max_speed : Option ℚ := none
  average_speed : Option ℚ := none
  current_speed : Option (Option ℚ) := none
  deriving DecidableEq

/-- The three per-metric site→value dicts (`avg_scores` before ranking, and the
`rankings` dict afterwards: keys `'speed'`, `'accessibility'`, `'reading age'`). -/
structure MetricMaps where
  speed : List (String × ℚ)
  accessibility : List (String × ℚ)
  reading_age : List (String × ℚ)
  deriving DecidableEq

/-- One site's nested text-analysis record: `language_data['dragnet']['standard']`
and `language_data['trafilatura']['standard']`; `none` models a missing key. -/
structure LanguageData where
  dragnet_standard : Option String
  trafilatura_standard : Option String
  deriving DecidableEq

/-- One row of `top_table`: the three `.get` fields (with `'-'` / `None`
defaults modelled as `none`) and the blended `overall` score. -/
structure TopEntry where
  accessibility : Option ℚ
  speed : Option ℚ
  reading_age : Option ℚ
  overall : ℤ
  deriving DecidableEq

/-- The per-site values the `__main__` loop accumulates into `avg_scores`:
`scores.get('average_accessibility', 0)`, `scores.get('average_speed', 0)` and
the translated `scores['reading age']`. -/
structure SiteScores where
  average_accessibility : Option ℚ
  average_speed : Option ℚ
  reading_age : Option Nat
  deriving DecidableEq

/-! ## MetricExtractor: `extract_scores` (lines 74-93) -/

/-- Modelled from the spec: `c19utils.daterange` is imported from `c19utils`,
which is not part of this repository's sources; spec section 4.1 says the
extractor iterates "every calendar day from `first_date` to `last_date`
inclusive". -/
def daterange (first last : Nat) : List Nat :=
  (List.range (last + 1 - first)).map (fun k => k + first)

/-- `extract_scores(data, dates)` with `date.today()` passed explicitly.
`dates.sort()` then `dates[0]` selects the earliest date (`none` models the
IndexError on an empty list); for each day of the range, a missing snapshot or
a missing/null score is recorded as `None`. -/
def extract_scores (data : Nat → Option Snapshot) (dates : List Nat) (today : Nat) :
    Option Extracted :=
  match sortAscBy id dates with
  | [] => none
  | first :: _ =>
      some { accessibility :=
               (daterange first today).map (fun d => (d, (data d).bind Snapshot.accessibility)),
             speed :=
               (daterange first today).map (fun d => (d, (data d).bind Snapshot.speed)) }

/-! ## SiteScoreSummarizer: `calculate_scores` (lines 95-117) -/

/-- `list(filter(None.__ne__, vs))`: `None.__ne__(x)` is `NotImplemented`
(truthy) for every `x` that is not `None` and `False` for `None`, so the
filter keeps exactly the non-`None` values — including `0.0`. -/
def pyFilterNotNone (vs : List (Option ℚ)) : List ℚ :=
  vs.filterMap id

/-- Python `max` on a list (`none` models the error on an empty list). -/
def pymax : List ℚ → Option ℚ
  | [] => none
  | x :: xs => some (xs.foldl max x)

/-- Python `min` on a list, used to state the spec's bounds. -/
def pymin : List ℚ → Option ℚ
  | [] => none
  | x :: xs => some (xs.foldl min x)

/-- `statistics.mean`. -/
def pymean (l : List ℚ) : ℚ :=
  l.sum / l.length

/-- The `if len(extracted_accessibility) > 0` block: sets `max_accessibility`,
`average_accessibility` and `current_accessibility`; the current score comes
from the raw `data[latest_date]`, so a missing report there is a `KeyError`. -/
def calc_step_acc (latest : Nat) (ext_acc : List ℚ) (data : Nat → Option Snapshot) :
    Except PyErr Calcs :=
  if 0 < ext_acc.length then
    match data latest with
    | some snap =>
        Except.ok { max_accessibility := pymax ext_acc,
                    average_accessibility := some (pymean ext_acc),
                    current_accessibility := some snap.accessibility }
    | none => Except.error (PyErr.keyError "latest_date")
  else Except.ok {}

/-- The `if len(extracted_speed) > 0` block, updating the dict built so far. -/
def calc_step_speed (latest : Nat) (ext_speed : List ℚ) (data : Nat → Option Snapshot)
    (c : Calcs) : Except PyErr Calcs :=
  if 0 < ext_speed.length then
    match data latest with
    | some snap =>
        Except.ok { c with max_speed := pymax ext_speed,
                           average_speed := some (pymean ext_speed),
                           current_speed := some snap.speed }
    | none => Except.error (PyErr.keyError "latest_date")
  else Except.ok c

/-- `calculate_scores(latest_date, extracted, data)`.  Both `if` blocks sit in
one `try`; the `except Exception` handler runs `print(f"Problem with {url}")`
where the name `url` is not bound in any enclosing scope, so the handler itself
raises `NameError` before `raise err` is reached — the original exception is
replaced and no site is identified. -/
def calculate_scores (latest : Nat) (extracted : Extracted) (data : Nat → Option Snapshot) :
    Except PyErr Calcs :=
  let ext_speed := pyFilterNotNone (extracted.speed.map Prod.snd)
  let ext_acc := pyFilterNotNone (extracted.accessibility.map Prod.snd)
  match calc_step_acc latest ext_acc data with
  | Except.error _ => Except.error (PyErr.nameError "url")
  | Except.ok c1 =>
      match calc_step_speed latest ext_speed data c1 with
      | Except.error _ => Except.error (PyErr.nameError "url")
      | Except.ok c2 => Except.ok c2

/-! ## ReadingAgeResolver: `find_reading_age` / `translate_reading_age`
(lines 119-143) -/

/-- `find_reading_age(language_data)`: dragnet first, trafilatura as fallback,
and the sentinel label is normalized to `None`. -/
def find_reading_age (language_data : LanguageData) : Option String :=
  let reading_age :=
    match language_data.dragnet_standard with
    | some r => some r
    | none => language_data.trafilatura_standard
  if reading_age = some "-1th and 0th grade" then none else reading_age

/-- `re.search(r'\d+', s)` followed by `int(...group())`: the first maximal run
of decimal digits in `s`, as a number (`none` when `s` has no digit). -/
def re_search_digits (s : String) : Option Nat :=
  let rec firstRun : List Char → Option (List Char)
    | [] => none
    | c :: cs => if c.isDigit then some (c :: cs.takeWhile Char.isDigit) else firstRun cs
  (firstRun s.toList).map (fun ds => ds.foldl (fun n c => 10 * n + (c.toNat - 48)) 0)

/-- `translate_reading_age(current_age)`.  The body reads the shared variable
`scores['reading age']` — a module-level dict mutated by the `__main__` loop —
and never its own parameter `current_age`, so both are passed explicitly here.
A `None` label makes `re.search` raise `TypeError`, and an unparsable label
makes `.group()` raise `AttributeError`; the bare `except` returns `None` for
both. -/
def translate_reading_age (scores_reading_age : Option String)
    (current_age : Option String) : Option Nat :=
  match scores_reading_age with
  | none => none
  | some s =>
      match re_search_digits s with
      | none => none
      | some score_to_use =>
          if 0 < score_to_use ∧ score_to_use < 13 then some (score_to_use + 5)
          else if 13 < score_to_use then some 18
          else none

/-- The `__main__` call site (lines 243-244): `scores['reading age']` is set to
`find_reading_age(...)` and immediately passed to `translate_reading_age`, so
there the shared variable and the argument hold the same label. -/
def reading_age_at_call_site (language_data : LanguageData) : Option Nat :=
  translate_reading_age (find_reading_age language_data) (find_reading_age language_data)

/-! ## RankingBuilder: `build_combined_rankings` (lines 149-155) -/

/-- `build_combined_rankings(avg_scores)`: speed and accessibility are sorted
by value with `reverse=True` (descending), reading age ascending; Python's
`sorted` is stable, so ties keep the insertion order of `avg_scores`. -/
def build_combined_rankings (avg_scores : MetricMaps) : MetricMaps :=
  { speed := sortDescBy Prod.snd avg_scores.speed,
    accessibility := sortDescBy Prod.snd avg_scores.accessibility,
    reading_age := sortAscBy Prod.snd avg_scores.reading_age }

/-! ## LeaderboardComposer: `build_top_table` (lines 157-182) -/

/-- `list(d).index(site)` on the keys of an ordered dict: the first index of
`site`, `none` modelling the `ValueError` when it is absent. -/
def listIndex {α : Type} [DecidableEq α] : List α → α → Option Nat
  | [], _ => none
  | x :: xs, a => if x = a then some 0 else (listIndex xs a).map (fun i => i + 1)

/-- `d.get(site, default)` on a site→value dict. -/
def lookupVal (m : List (String × ℚ)) (site : String) : Option ℚ :=
  (m.find? (fun p => p.1 = site)).map Prod.snd

/-- The body of the `for site in site_list` loop of `build_top_table`, for one
site.  `site_count` is `len(site_list)`.  The three `overall` steps are:

* `top_table[site]['overall'] = 2 * (site_count - index)` — guarded by
  `except ValueError`, so if the site is missing from the speed ranking the
  key `'overall'` is simply never created;
* `top_table[site]['overall'] += site_count - index` for accessibility, then
  for reading age — each guarded only by `except ValueError`.  The augmented
  assignment first reads `top_table[site]['overall']`; when that key was never
  created this raises `KeyError('overall')`, which no handler catches, before
  the right-hand side (and its possible `ValueError`) is even evaluated. -/
def site_entry (site_count : ℤ) (rankings : MetricMaps) (site : String) :
    Except PyErr TopEntry :=
  match listIndex (rankings.speed.map Prod.fst) site with
  | none => Except.error (PyErr.keyError "overall")
  | some i =>
      let o1 : ℤ := 2 * (site_count - (i : ℤ))
      let o2 : ℤ :=
        match listIndex (rankings.accessibility.map Prod.fst) site with
        | some j => o1 + (site_count - (j : ℤ))
        | none => o1
      let o3 : ℤ :=
        match listIndex (rankings.reading_age.map Prod.fst) site with
        | some k => o2 + (site_count - (k : ℤ))
        | none => o2
      Except.ok { accessibility := lookupVal rankings.accessibility site,
                  speed := lookupVal rankings.speed site,
                  reading_age := lookupVal rankings.reading_age site,
                  overall := o3 }

/-- The whole `for site in site_list` loop: rows in `site_list` order, aborting
with the first uncaught exception. -/
def top_table_rows (site_count : ℤ) (rankings : MetricMaps) :
    List String → Except PyErr (List (String × TopEntry))
  | [] => Except.ok []
  | site :: rest =>
      match site_entry site_count rankings site with
      | Except.error e => Except.error e
      | Except.ok entry =>
          match top_table_rows site_count rankings rest with
          | Except.error e => Except.error e
          | Except.ok rows => Except.ok ((site, entry) :: rows)

/-- `build_top_table(site_list, rankings)`: `site_count = len(site_list)`, one
row per site, then `OrderedDict(sorted(..., key=overall, reverse=True))`.
`site_list` is a dict in the caller, so its keys are pairwise distinct. -/
def build_top_table (site_list : List String) (rankings : MetricMaps) :
    Except PyErr (List (String × TopEntry)) :=
  match top_table_rows (site_list.length : ℤ) rankings site_list with
  | Except.error e => Except.error e
  | Except.ok rows => Except.ok (sortDescBy (fun r => r.2.overall) rows)

/-! ## The `__main__` accumulation of `avg_scores` (lines 243-258) -/

/-- The per-site accumulation into `avg_scores`: `accessibility` and `speed`
always get an entry, defaulting to `0` when the summary has no average
(`scores.get('average_accessibility', 0)`, `scores.get('average_speed', 0)`);
`'reading age'` gets an entry only when `scores['reading age']` is truthy
(`if scores['reading age']:`), i.e. neither `None` nor `0`. -/
def main_avg_scores (processed : List (String × SiteScores)) : MetricMaps :=
  { accessibility := processed.map (fun p => (p.1, p.2.average_accessibility.getD 0)),
    speed := processed.map (fun p => (p.1, p.2.average_speed.getD 0)),
    reading_age := processed.filterMap (fun p =>
      match p.2.reading_age with
      | some v => if v ≠ 0 then some (p.1, (v : ℚ)) else none
      | none => none) }

/-! ## Concrete instances used by the leaderboard claims -/

/-- The spec's worked leaderboard example: speed ranking `[A,B,C]`,
accessibility `[B,C,A]`, reading age `[C,A,B]`, with values consistent with
each ordering. -/
def c1_example_rankings : MetricMaps :=
  { speed := [("A", 3), ("B", 2), ("C", 1)],
    accessibility := [("B", 3), ("C", 2), ("A", 1)],
    reading_age := [("C", 1), ("A", 2), ("B", 3)] }

/-- Two sites in every ranking, but only site A in the reading-age ranking,
so the reading-age ranking is shorter than the site list. -/
def c1_cex_rankings : MetricMaps :=
  { speed := [("A", 2), ("B", 1)],
    accessibility := [("A", 2), ("B", 1)],
    reading_age := [("A", 1)] }

/-! ## Helper lemmas -/

theorem foldl_max_mem (x : ℚ) (l : List ℚ) : l.foldl max x ∈ x :: l := by
  induction l generalizing x with
  | nil => simp
  | cons a as ih =>
    have h := ih (max x a)
    rw [List.foldl_cons]
    rcases List.mem_cons.mp h with h | h
    · rw [h]
      rcases max_choice x a with hc | hc
      · rw [hc]
        exact List.mem_cons_self _ _
      · rw [hc]
        exact List.mem_cons_of_mem _ (List.mem_cons_self _ _)
    · exact List.mem_cons_of_mem _ (List.mem_cons_of_mem _ h)

theorem le_foldl_max (x : ℚ) (l : List ℚ) : ∀ y ∈ x :: l, y ≤ l.foldl max x := by
  induction l generalizing x with
  | nil => simp
  | cons a as ih =>
    intro y hy
    have hbase : ∀ z ∈ (max x a) :: as, z ≤ as.foldl max (max x a) := ih (max x a)
    have hm : max x a ≤ as.foldl max (max x a) := hbase _ (List.mem_cons_self _ _)
    rcases List.mem_cons.mp hy with hy | hy
    · exact hy ▸ ((le_max_left x a).trans hm)
    · rcases List.mem_cons.mp hy with hy | hy
      · exact hy ▸ ((le_max_right x a).trans hm)
      · exact hbase y (List.mem_cons_of_mem _ hy)

theorem pymax_spec (x : ℚ) (xs : List ℚ) :
    ∃ M, pymax (x :: xs) = some M ∧ M ∈ x :: xs ∧ ∀ y ∈ x :: xs, y ≤ M :=
  ⟨xs.foldl max x, rfl, foldl_max_mem x xs, le_foldl_max x xs⟩

theorem foldl_min_mem (x : ℚ) (l : List ℚ) : l.foldl min x ∈ x :: l := by
  induction l generalizing x with
  | nil => simp
  | cons a as ih =>
    have h := ih (min x a)
    rw [List.foldl_cons]
    rcases List.mem_cons.mp h with h | h
    · rw [h]
      rcases min_choice x a with hc | hc
      · rw [hc]
        exact List.mem_cons_self _ _
      · rw [hc]
        exact List.mem_cons_of_mem _ (List.mem_cons_self _ _)
    · exact List.mem_cons_of_mem _ (List.mem_cons_of_mem _ h)

theorem foldl_min_le (x : ℚ) (l : List ℚ) : ∀ y ∈ x :: l, l.foldl min x ≤ y := by
  induction l generalizing x with
  | nil => simp
  | cons a as ih =>
    intro y hy
    have hbase : ∀ z ∈ (min x a) :: as, as.foldl min (min x a) ≤ z := ih (min x a)
    have hm : as.foldl min (min x a) ≤ min x a := hbase _ (List.mem_cons_self _ _)
    rcases List.mem_cons.mp hy with hy | hy
    · exact hy ▸ (hm.trans (min_le_left x a))
    · rcases List.mem_cons.mp hy with hy | hy
      · exact hy ▸ (hm.trans (min_le_right x a))
      · exact hbase y (List.mem_cons_of_mem _ hy)

theorem pymin_spec (x : ℚ) (xs : List ℚ) :
    ∃ m, pymin (x :: xs) = some m ∧ m ∈ x :: xs ∧ ∀ y ∈ x :: xs, m ≤ y :=
  ⟨xs.foldl min x, rfl, foldl_min_mem x xs, foldl_min_le x xs⟩

theorem pymean_le (l : List ℚ) (M : ℚ) (hne : l ≠ []) (h : ∀ y ∈ l, y ≤ M) :
    pymean l ≤ M := by
  have hlen : 0 < (l.length : ℚ) := by
    have : 0 < l.length := List.length_pos.mpr hne
    exact_mod_cast this
  have hsum : l.sum ≤ l.length • M := List.sum_le_card_nsmul l M h
  rw [nsmul_eq_mul] at hsum
  rw [pymean, div_le_iff₀ hlen]
  linarith

theorem le_pymean (l : List ℚ) (m : ℚ) (hne : l ≠ []) (h : ∀ y ∈ l, m ≤ y) :
    m ≤ pymean l := by
  have hlen : 0 < (l.length : ℚ) := by
    have : 0 < l.length := List.length_pos.mpr hne
    exact_mod_cast this
  have hsum : l.length • m ≤ l.sum := List.card_nsmul_le_sum l m h
  rw [nsmul_eq_mul] at hsum
  rw [pymean, le_div_iff₀ hlen]
  linarith

theorem daterange_length (first last : Nat) :
    (daterange first last).length = last + 1 - first := by
  simp [daterange]

theorem daterange_mem (first last d : Nat) :
    d ∈ daterange first last ↔ first ≤ d ∧ d ≤ last := by
  simp only [daterange, List.mem_map, List.mem_range]
  constructor
  · rintro ⟨k, hk, rfl⟩
    omega
  · rintro ⟨h1, h2⟩
    exact ⟨d - first, by omega, by omega⟩

theorem daterange_nodup (first last : Nat) : (daterange first last).Nodup := by
  refine List.Nodup.map ?_ (List.nodup_range _)
  intro a b hab
  simpa using hab

theorem sortAscBy_head_min {α β : Type} [LinearOrder β] (key : α → β) (l : List α) (x : α)
    (xs : List α)
    (h : sortAscBy key l = x :: xs) : x ∈ l ∧ ∀ y ∈ l, key x ≤ key y := by
  have hperm : (sortAscBy key l).Perm l := sortAscBy_perm key l
  have hx : x ∈ l := hperm.mem_iff.mp (h ▸ List.mem_cons_self x xs)
  refine ⟨hx, ?_⟩
  intro y hy
  have hy' : y ∈ x :: xs := h ▸ hperm.mem_iff.mpr hy
  rcases List.mem_cons.mp hy' with hy' | hy'
  · exact hy' ▸ le_refl _
  · have hpw := sortAscBy_pairwise key l
    rw [h] at hpw
    exact (List.pairwise_cons.mp hpw).1 y hy'

/-- `site_entry` applied to every row a successful `top_table` loop produced. -/
theorem top_table_rows_mem (site_count : ℤ) (rankings : MetricMaps) (sites : List String)
    (rows : List (String × TopEntry)) (site : String) (e : TopEntry)
    (h : top_table_rows site_count rankings sites = Except.ok rows)
    (hmem : (site, e) ∈ rows) : site_entry site_count rankings site = Except.ok e := by
  induction sites generalizing rows with
  | nil =>
    rw [top_table_rows] at h
    cases h
    simp at hmem
  | cons s rest ih =>
    rw [top_table_rows] at h
    cases hes : site_entry site_count rankings s with
    | error err => rw [hes] at h; cases h
    | ok entry =>
      rw [hes] at h
      cases hrt : top_table_rows site_count rankings rest with
      | error err => rw [hrt] at h; cases h
      | ok rows0 =>
        rw [hrt] at h
        cases h
        rcases List.mem_cons.mp hmem with hm | hm
        · injection hm with h1 h2
          subst h1
          subst h2
          exact hes
        · exact ih rows0 hrt hm

/-! ## Claim theorems -/

/-- C1: the spec's 3-site example does produce overall scores 9, 8, 7 and the
final order A, B, C; but in general each term of `overall` uses
`site_count = len(site_list)`, not the entry count of the ranking being
consulted: for a site at zero-based position `i` of the speed ranking,
`overall = 2*(site_count - i)`, plus `site_count - j` when the site is at
position `j` of the accessibility ranking, plus `site_count - k` when it is at
position `k` of the reading-age ranking. -/
theorem C1_top_table :
    ((build_top_table ["A", "B", "C"] c1_example_rankings).map
        (fun rows => rows.map (fun r => (r.1, r.2.overall))) =
      Except.ok [("A", 9), ("B", 8), ("C", 7)]) ∧
    (∀ site_list rankings rows site e i,
      build_top_table site_list rankings = Except.ok rows →
      (site, e) ∈ rows →
      listIndex (rankings.speed.map Prod.fst) site = some i →
      e.overall = 2 * ((site_list.length : ℤ) - (i : ℤ)) +
        (match listIndex (rankings.accessibility.map Prod.fst) site with
         | some j => (site_list.length : ℤ) - (j : ℤ)
         | none => 0) +
        (match listIndex (rankings.reading_age.map Prod.fst) site with
         | some k => (site_list.length : ℤ) - (k : ℤ)
         | none => 0)) := by
  constructor
  · rfl
  · intro site_list rankings rows site e i hok hmem hidx
    rw [build_top_table] at hok
    cases hrt : top_table_rows (site_list.length : ℤ) rankings site_list with
    | error err => rw [hrt] at hok; cases hok
    | ok rows0 =>
      rw [hrt] at hok
      cases hok
      have hmem0 : (site, e) ∈ rows0 :=
        (sortDescBy_perm (fun r => r.2.overall) rows0).mem_iff.mp hmem
      have hse := top_table_rows_mem _ _ _ _ _ _ hrt hmem0
      rw [site_entry, hidx] at hse
      cases hja : listIndex (rankings.accessibility.map Prod.fst) site with
      | none =>
        cases hka : listIndex (rankings.reading_age.map Prod.fst) site with
        | none =>
          rw [hja, hka] at hse
          injection hse with hse
          rw [← hse]
          try ring
        | some k =>
          rw [hja, hka] at hse
          injection hse with hse
          rw [← hse]
          try ring
      | some j =>
        cases hka : listIndex (rankings.reading_age.map Prod.fst) site with
        | none =>
          rw [hja, hka] at hse
          injection hse with hse
          rw [← hse]
          try ring
        | some k =>
          rw [hja, hka] at hse
          injection hse with hse
          rw [← hse]
          try ring

/-- C1 witness: the general formula instantiated on the worked example at
site A (speed position 0, accessibility position 2, reading-age position 1,
site count 3): overall 9 = 2*3 + 1 + 2. -/
theorem C1_top_table_witness :
    ({ accessibility := some 1, speed := some 3, reading_age := some 2,
       overall := 9 } : TopEntry).overall =
      2 * ((3 : ℤ) - 0) + ((3 : ℤ) - 2) + ((3 : ℤ) - 1) := by
  have h := C1_top_table.2 ["A", "B", "C"] c1_example_rankings
    [("A", { accessibility := some 1, speed := some 3, reading_age := some 2, overall := 9 }),
     ("B", { accessibility := some 3, speed := some 2, reading_age := some 3, overall := 8 }),
     ("C", { accessibility := some 2, speed := some 1, reading_age := some 1, overall := 7 })]
    "A" { accessibility := some 1, speed := some 3, reading_age := some 2, overall := 9 }
    0 rfl (List.mem_cons_self _ _) rfl
  simpa using h

/-- C1 counterexample: with two listed sites all in the speed and
accessibility rankings but only site A in the reading-age ranking, the code
scores A as `2*(2-0) + (2-0) + (2-0) = 8`, whereas reading `N` as the entry
count of the ranking being consulted (here 1 for reading age) predicts
`2*(2-0) + (2-0) + (1-0) = 7`. -/
theorem C1_top_table_cex :
    ((build_top_table ["A", "B"] c1_cex_rankings).map
        (fun rows => rows.map (fun r => (r.1, r.2.overall))) =
      Except.ok [("A", 8), ("B", 3)]) ∧
    (8 : ℤ) ≠ 2 * ((2 : ℤ) - 0) + ((2 : ℤ) - 0) + ((1 : ℤ) - 0) := by
  exact ⟨rfl, by decide⟩

/-- C2: a site in `site_list` that is absent from the speed ranking crashes
`build_top_table` with `KeyError('overall')` — the `except ValueError` guards
do not catch the `KeyError` raised by the augmented assignment when the
`'overall'` key was never created — instead of receiving an overall score
built from the remaining rankings. -/
theorem C2_missing_speed_raises :
    build_top_table ["A"]
      { speed := [], accessibility := [("A", 1)], reading_age := [] } =
      Except.error (PyErr.keyError "overall") := rfl

/-- C3 counterexample: a label whose grade is 13 — which the claim, reading
"every grade above 12 is capped at age 18", maps to 18 — is translated to
absent: `score_to_use > 0 and score_to_use < 13` is false and so is
`score_to_use > 13`, so the `else` branch yields `None`. -/
theorem C3_reading_age_cex :
    re_search_digits "13th grade" = some 13 ∧
    reading_age_at_call_site
      { dragnet_standard := some "13th grade", trafilatura_standard := none } = none ∧
    (none : Option Nat) ≠ some 18 := by
  refine ⟨rfl, rfl, by decide⟩

/-- C3 (amended): with the shared `scores['reading age']` and the argument
holding the same label, as at the `__main__` call site: a first embedded
number `g` with `1 ≤ g ≤ 12` yields age `g + 5`; `g ≥ 14` yields the cap 18;
`g = 0` and `g = 13` yield absent; a label with no digits yields absent; the
sentinel label is normalized to absent by `find_reading_age`; and a missing
label (`None`) yields absent. -/
theorem C3_reading_age_mapping :
    (∀ s g, re_search_digits s = some g →
      ((1 ≤ g ∧ g ≤ 12) → translate_reading_age (some s) (some s) = some (g + 5)) ∧
      (14 ≤ g → translate_reading_age (some s) (some s) = some 18) ∧
      ((g = 0 ∨ g = 13) → translate_reading_age (some s) (some s) = none)) ∧
    (∀ s, re_search_digits s = none → translate_reading_age (some s) (some s) = none) ∧
    (∀ t, find_reading_age
      { dragnet_standard := some "-1th and 0th grade", trafilatura_standard := t } = none) ∧
    (∀ c, translate_reading_age none c = none) := by
  refine ⟨?_, ?_, ?_, ?_⟩
  · intro s g h
    refine ⟨?_, ?_, ?_⟩
    · intro hg
      simp only [translate_reading_age, h]
      rw [if_pos (show 0 < g ∧ g < 13 by omega)]
    · intro hg
      simp only [translate_reading_age, h]
      rw [if_neg (show ¬ (0 < g ∧ g < 13) by omega), if_pos (show 13 < g by omega)]
    · intro hg
      rcases hg with rfl | rfl
      · simp only [translate_reading_age, h]
        rfl
      · simp only [translate_reading_age, h]
        rfl
  · intro s h
    simp only [translate_reading_age, h]
  · intro t
    rfl
  · intro c
    rfl

/-- C3 witness: the spec's own example, a label containing 7 maps to age 12. -/
theorem C3_reading_age_witness :
    translate_reading_age (some "7th grade") (some "7th grade") = some 12 :=
  (C3_reading_age_mapping.1 "7th grade" 7 rfl).1 (by decide)

/-- C4: `translate_reading_age` is not pure in its argument — it reads the
shared `scores['reading age']` and ignores its parameter `current_age`.  Both
calls below pass the same argument label (`7th grade`) but different shared
state, and return different results; the second call also shows the result
tracking the shared state, not the argument. -/
theorem C4_translate_reads_global :
    translate_reading_age (some "7th grade") (some "7th grade") = some 12 ∧
    translate_reading_age (some "14th grade") (some "7th grade") = some 18 ∧
    some (12 : Nat) ≠ some 18 := by
  refine ⟨rfl, rfl, by decide⟩

/-- C9: when the summary computation fails (here: the current-score lookup at
a `latest_date` that has no report), the `except Exception` handler itself
raises `NameError` — `url` is unbound — so the caller receives an unrelated
`NameError` identifying no site instead of the original `KeyError`. -/
theorem C9_error_replaced :
    calculate_scores 1 { accessibility := [(0, some 1)], speed := [] } (fun _ => none) =
      Except.error (PyErr.nameError "url") ∧
    PyErr.nameError "url" ≠ PyErr.keyError "latest_date" := by
  refine ⟨rfl, by decide⟩

/-- C5: for a non-empty list of snapshot dates whose earliest date is not in
the future, `extract_scores` yields one entry per calendar day from the
earliest snapshot date through today inclusive — the entry count is the
inclusive day count, the dates are exactly the range with no duplicates — and
each day's entry carries the snapshot's score for that day when a snapshot
exists and `None` otherwise. -/
theorem C5_daily_series (data : Nat → Option Snapshot) (dates : List Nat)
    (today first : Nat) (rest : List Nat)
    (hsort : sortAscBy id dates = first :: rest) (htoday : first ≤ today) :
    ∃ ext, extract_scores data dates today = some ext ∧
      first ∈ dates ∧ (∀ d ∈ dates, first ≤ d) ∧
      ext.accessibility.length = today + 1 - first ∧
      ext.speed.length = today + 1 - first ∧
      ext.accessibility.map Prod.fst = daterange first today ∧
      ext.speed.map Prod.fst = daterange first today ∧
      (ext.accessibility.map Prod.fst).Nodup ∧
      (∀ d, d ∈ ext.accessibility.map Prod.fst ↔ (first ≤ d ∧ d ≤ today)) ∧
      (∀ p ∈ ext.accessibility, p.2 = (data p.1).bind Snapshot.accessibility) ∧
      (∀ p ∈ ext.speed, p.2 = (data p.1).bind Snapshot.speed) := by
  obtain ⟨hfst, hmin⟩ := sortAscBy_head_min id dates first rest hsort
  have hx : extract_scores data dates today =
      some { accessibility :=
               (daterange first today).map (fun d => (d, (data d).bind Snapshot.accessibility)),
             speed :=
               (daterange first today).map (fun d => (d, (data d).bind Snapshot.speed)) } := by
    unfold extract_scores
    rw [hsort]
  have hfst' : first ∈ dates := hfst
  have hfstmap : ((daterange first today).map
      (fun d => (d, (data d).bind Snapshot.accessibility))).map Prod.fst =
      daterange first today := by
    rw [List.map_map]
    exact List.map_id'' (fun x => rfl) _
  have hfstmap2 : ((daterange first today).map
      (fun d => (d, (data d).bind Snapshot.speed))).map Prod.fst =
      daterange first today := by
    rw [List.map_map]
    exact List.map_id'' (fun x => rfl) _
  refine ⟨_, hx, hfst', hmin, ?_, ?_, hfstmap, hfstmap2, ?_, ?_, ?_, ?_⟩
  · simp [daterange_length]
  · simp [daterange_length]
  · rw [hfstmap]
    exact daterange_nodup first today
  · intro d
    rw [hfstmap]
    exact daterange_mem first today d
  · intro p hp
    obtain ⟨d, _, rfl⟩ := List.mem_map.mp hp
    rfl
  · intro p hp
    obtain ⟨d, _, rfl⟩ := List.mem_map.mp hp
    rfl

/-- C5 witness: snapshots on days 3 and 5 (given unsorted), today day 6: four
entries for days 3 through 6. -/
theorem C5_daily_series_witness :
    ∃ ext, extract_scores
        (fun d => if d = 3 then some { accessibility := some 1, speed := none } else none)
        [5, 3] 6 = some ext ∧
      3 ∈ [5, 3] ∧ (∀ d ∈ [5, 3], 3 ≤ d) ∧
      ext.accessibility.length = 6 + 1 - 3 ∧
      ext.speed.length = 6 + 1 - 3 ∧
      ext.accessibility.map Prod.fst = daterange 3 6 ∧
      ext.speed.map Prod.fst = daterange 3 6 ∧
      (ext.accessibility.map Prod.fst).Nodup ∧
      (∀ d, d ∈ ext.accessibility.map Prod.fst ↔ (3 ≤ d ∧ d ≤ 6)) ∧
      (∀ p ∈ ext.accessibility, p.2 =
        ((fun d => if d = 3 then some { accessibility := some 1, speed := none } else none) p.1
          : Option Snapshot).bind Snapshot.accessibility) ∧
      (∀ p ∈ ext.speed, p.2 =
        ((fun d => if d = 3 then some { accessibility := some 1, speed := none } else none) p.1
          : Option Snapshot).bind Snapshot.speed) :=
  C5_daily_series _ [5, 3] 6 3 [5] rfl (by decide)

/-- C6: `build_combined_rankings` sorts speed and accessibility descending by
value and reading age ascending by value; each ranking is a permutation of its
input map, and ties keep the input's iteration order (the ranking filtered to
any single value equals the input filtered to that value).  Determinism given
identical input is immediate since the embedding is a pure function. -/
theorem C6_rankings (avg_scores : MetricMaps) :
    ((build_combined_rankings avg_scores).speed.Pairwise (fun a b => b.2 ≤ a.2)) ∧
    ((build_combined_rankings avg_scores).speed.Perm avg_scores.speed) ∧
    ((build_combined_rankings avg_scores).accessibility.Pairwise (fun a b => b.2 ≤ a.2)) ∧
    ((build_combined_rankings avg_scores).accessibility.Perm avg_scores.accessibility) ∧
    ((build_combined_rankings avg_scores).reading_age.Pairwise (fun a b => a.2 ≤ b.2)) ∧
    ((build_combined_rankings avg_scores).reading_age.Perm avg_scores.reading_age) ∧
    (∀ v : ℚ,
      (build_combined_rankings avg_scores).speed.filter (fun p => p.2 = v) =
        avg_scores.speed.filter (fun p => p.2 = v) ∧
      (build_combined_rankings avg_scores).accessibility.filter (fun p => p.2 = v) =
        avg_scores.accessibility.filter (fun p => p.2 = v) ∧
      (build_combined_rankings avg_scores).reading_age.filter (fun p => p.2 = v) =
        avg_scores.reading_age.filter (fun p => p.2 = v)) :=
  ⟨sortDescBy_pairwise Prod.snd avg_scores.speed,
   sortDescBy_perm Prod.snd avg_scores.speed,
   sortDescBy_pairwise Prod.snd avg_scores.accessibility,
   sortDescBy_perm Prod.snd avg_scores.accessibility,
   sortAscBy_pairwise Prod.snd avg_scores.reading_age,
   sortAscBy_perm Prod.snd avg_scores.reading_age,
   fun v => ⟨sortDescBy_filter Prod.snd avg_scores.speed v,
             sortDescBy_filter Prod.snd avg_scores.accessibility v,
             sortAscBy_filter Prod.snd avg_scores.reading_age v⟩⟩

/-- C7 counterexample: a site whose summary has no computed accessibility
average (`average_accessibility` absent) still appears in the accessibility
ranking — with the placeholder value 0 taken from
`scores.get('average_accessibility', 0)` — instead of being absent from it. -/
theorem C7_placeholder_cex :
    (build_combined_rankings (main_avg_scores
      [("A", { average_accessibility := none, average_speed := some 1,
               reading_age := some 12 })])).accessibility = [("A", 0)] := rfl

/-- C7 (amended): only the reading-age ranking contains exactly the sites with
a computed value (a truthy translated reading age); the speed and accessibility
rankings contain every processed site, including sites with no computed average
for that metric, which enter with the placeholder value 0. -/
theorem C7_ranking_membership (processed : List (String × SiteScores)) (site : String) :
    (site ∈ ((build_combined_rankings (main_avg_scores processed)).accessibility.map Prod.fst) ↔
      ∃ s, (site, s) ∈ processed) ∧
    (site ∈ ((build_combined_rankings (main_avg_scores processed)).speed.map Prod.fst) ↔
      ∃ s, (site, s) ∈ processed) ∧
    (site ∈ ((build_combined_rankings (main_avg_scores processed)).reading_age.map Prod.fst) ↔
      ∃ s v, (site, s) ∈ processed ∧ s.reading_age = some v ∧ v ≠ 0) := by
  have hmapped : ∀ (f : SiteScores → ℚ),
      (site ∈ (processed.map (fun p => (p.1, f p.2))).map Prod.fst ↔
        ∃ s, (site, s) ∈ processed) := by
    intro f
    rw [List.map_map]
    constructor
    · intro h
      obtain ⟨⟨a, b⟩, hmem, hab⟩ := List.mem_map.mp h
      simp only [Function.comp] at hab
      exact ⟨b, hab ▸ hmem⟩
    · rintro ⟨s, hs⟩
      exact List.mem_map.mpr ⟨(site, s), hs, rfl⟩
  refine ⟨?_, ?_, ?_⟩
  · have hperm := (sortDescBy_perm Prod.snd (main_avg_scores processed).accessibility).map Prod.fst
    simp only [build_combined_rankings]
    rw [hperm.mem_iff]
    exact hmapped (fun s => s.average_accessibility.getD 0)
  · have hperm := (sortDescBy_perm Prod.snd (main_avg_scores processed).speed).map Prod.fst
    simp only [build_combined_rankings]
    rw [hperm.mem_iff]
    exact hmapped (fun s => s.average_speed.getD 0)
  · have hperm := (sortAscBy_perm Prod.snd (main_avg_scores processed).reading_age).map Prod.fst
    simp only [build_combined_rankings]
    rw [hperm.mem_iff]
    constructor
    · intro h
      obtain ⟨q, hq, hq1⟩ := List.mem_map.mp h
      obtain ⟨⟨a, srec⟩, hp, hfp⟩ := List.mem_filterMap.mp hq
      cases hra : srec.reading_age with
      | none => rw [hra] at hfp; cases hfp
      | some v =>
        rw [hra] at hfp
        by_cases hv : v ≠ 0
        · have hfp' : some ((a, srec).1, (v : ℚ)) = some q := by
            rw [← hfp]
            show some ((a, srec).1, (v : ℚ)) =
              if v ≠ 0 then some ((a, srec).1, (v : ℚ)) else none
            rw [if_pos hv]
          injection hfp' with hfp'
          have ha : a = site := by
            rw [← hfp'] at hq1
            exact hq1
          subst ha
          exact ⟨srec, v, hp, hra, hv⟩
        · have hfp' : (none : Option (String × ℚ)) = some q := by
            rw [← hfp]
            show (none : Option (String × ℚ)) =
              if v ≠ 0 then some ((a, srec).1, (v : ℚ)) else none
            rw [if_neg hv]
          cases hfp'
    · rintro ⟨s, v, hmem, hra, hv⟩
      refine List.mem_map.mpr ⟨(site, (v : ℚ)), ?_, rfl⟩
      refine List.mem_filterMap.mpr ⟨(site, s), hmem, ?_⟩
      show (match s.reading_age with
            | some v => if v ≠ 0 then some (site, (v : ℚ)) else none
            | none => none) = some (site, (v : ℚ))
      rw [hra]
      show (if v ≠ 0 then some (site, (v : ℚ)) else none) = some (site, (v : ℚ))
      rw [if_pos hv]

/-- Closed form of a successful `calculate_scores` run: when the raw data does
have a report at `latest_date`, the result holds exactly the statistics of the
non-`None` samples, each triple present or omitted together. -/
theorem calculate_scores_ok (latest : Nat) (extracted : Extracted)
    (data : Nat → Option Snapshot) (snap : Snapshot) (hdata : data latest = some snap) :
    calculate_scores latest extracted data = Except.ok
      { max_accessibility := pymax (pyFilterNotNone (extracted.accessibility.map Prod.snd)),
        average_accessibility :=
          if pyFilterNotNone (extracted.accessibility.map Prod.snd) = [] then none
          else some (pymean (pyFilterNotNone (extracted.accessibility.map Prod.snd))),
        current_accessibility :=
          if pyFilterNotNone (extracted.accessibility.map Prod.snd) = [] then none
          else some snap.accessibility,
        max_speed := pymax (pyFilterNotNone (extracted.speed.map Prod.snd)),
        average_speed :=
          if pyFilterNotNone (extracted.speed.map Prod.snd) = [] then none
          else some (pymean (pyFilterNotNone (extracted.speed.map Prod.snd))),
        current_speed :=
          if pyFilterNotNone (extracted.speed.map Prod.snd) = [] then none
          else some snap.speed } := by
  rcases hacc : pyFilterNotNone (extracted.accessibility.map Prod.snd) with _ | ⟨a, as⟩ <;>
    rcases hsp : pyFilterNotNone (extracted.speed.map Prod.snd) with _ | ⟨b, bs⟩ <;>
      simp [calculate_scores, calc_step_acc, calc_step_speed, hacc, hsp, hdata, pymax]

/-- C8: for a time series with a report at the latest date, whenever a metric
has at least one non-`None` sample `calculate_scores` emits its max, average
and current value together, the max and average being those of the non-`None`
samples, with `min ≤ average ≤ max`; and whenever a metric has no non-`None`
sample, its max, average and current keys are all absent together. -/
theorem C8_summary_stats (latest : Nat) (extracted : Extracted)
    (data : Nat → Option Snapshot) (snap : Snapshot) (hdata : data latest = some snap) :
    ∃ calcs, calculate_scores latest extracted data = Except.ok calcs ∧
      (pyFilterNotNone (extracted.accessibility.map Prod.snd) = [] →
        calcs.max_accessibility = none ∧ calcs.average_accessibility = none ∧
          calcs.current_accessibility = none) ∧
      (∀ x xs, pyFilterNotNone (extracted.accessibility.map Prod.snd) = x :: xs →
        ∃ M m, calcs.max_accessibility = some M ∧ pymax (x :: xs) = some M ∧
          calcs.average_accessibility = some (pymean (x :: xs)) ∧
          calcs.current_accessibility = some snap.accessibility ∧
          pymin (x :: xs) = some m ∧ m ≤ pymean (x :: xs) ∧ pymean (x :: xs) ≤ M) ∧
      (pyFilterNotNone (extracted.speed.map Prod.snd) = [] →
        calcs.max_speed = none ∧ calcs.average_speed = none ∧ calcs.current_speed = none) ∧
      (∀ x xs, pyFilterNotNone (extracted.speed.map Prod.snd) = x :: xs →
        ∃ M m, calcs.max_speed = some M ∧ pymax (x :: xs) = some M ∧
          calcs.average_speed = some (pymean (x :: xs)) ∧
          calcs.current_speed = some snap.speed ∧
          pymin (x :: xs) = some m ∧ m ≤ pymean (x :: xs) ∧ pymean (x :: xs) ≤ M) := by
  refine ⟨_, calculate_scores_ok latest extracted data snap hdata, ?_, ?_, ?_, ?_⟩
  · intro h
    simp [h, pymax]
  · intro x xs h
    obtain ⟨M, hM, hMmem, hMub⟩ := pymax_spec x xs
    obtain ⟨m, hm, hmmem, hmlb⟩ := pymin_spec x xs
    refine ⟨M, m, ?_, hM, ?_, ?_, hm, ?_, ?_⟩
    · simp [h, hM]
    · simp [h]
    · simp [h]
    · exact le_pymean (x :: xs) m (List.cons_ne_nil x xs) hmlb
    · exact pymean_le (x :: xs) M (List.cons_ne_nil x xs) hMub
  · intro h
    simp [h, pymax]
  · intro x xs h
    obtain ⟨M, hM, hMmem, hMub⟩ := pymax_spec x xs
    obtain ⟨m, hm, hmmem, hmlb⟩ := pymin_spec x xs
    refine ⟨M, m, ?_, hM, ?_, ?_, hm, ?_, ?_⟩
    · simp [h, hM]
    · simp [h]
    · simp [h]
    · exact le_pymean (x :: xs) m (List.cons_ne_nil x xs) hmlb
    · exact pymean_le (x :: xs) M (List.cons_ne_nil x xs) hMub

/-- C8 witness: one accessibility sample 1 and one speed sample 1/2, report
present at the latest date: both triples are emitted with max = average. -/
theorem C8_summary_stats_witness :
    ∃ calcs, calculate_scores 0
        { accessibility := [(0, some 1)], speed := [(0, some (1/2))] }
        (fun _ => some { accessibility := some 1, speed := some (1/2) }) =
        Except.ok calcs ∧
      (pyFilterNotNone ([((0 : Nat), some (1 : ℚ))].map Prod.snd) = [] →
        calcs.max_accessibility = none ∧ calcs.average_accessibility = none ∧
          calcs.current_accessibility = none) ∧
      (∀ x xs, pyFilterNotNone ([((0 : Nat), some (1 : ℚ))].map Prod.snd) = x :: xs →
        ∃ M m, calcs.max_accessibility = some M ∧ pymax (x :: xs) = some M ∧
          calcs.average_accessibility = some (pymean (x :: xs)) ∧
          calcs.current_accessibility = some (some 1) ∧
          pymin (x :: xs) = some m ∧ m ≤ pymean (x :: xs) ∧ pymean (x :: xs) ≤ M) ∧
      (pyFilterNotNone ([((0 : Nat), some ((1 : ℚ)/2))].map Prod.snd) = [] →
        calcs.max_speed = none ∧ calcs.average_speed = none ∧ calcs.current_speed = none) ∧
      (∀ x xs, pyFilterNotNone ([((0 : Nat), some ((1 : ℚ)/2))].map Prod.snd) = x :: xs →
        ∃ M m, calcs.max_speed = some M ∧ pymax (x :: xs) = some M ∧
          calcs.average_speed = some (pymean (x :: xs)) ∧
          calcs.current_speed = some (some (1/2)) ∧
          pymin (x :: xs) = some m ∧ m ≤ pymean (x :: xs) ∧ pymean (x :: xs) ≤ M) :=
  C8_summary_stats 0 { accessibility := [(0, some 1)], speed := [(0, some (1/2))] }
    (fun _ => some { accessibility := some 1, speed := some (1/2) })
    { accessibility := some 1, speed := some (1/2) } rfl

/-- `filter(None.__ne__, ...)` over samples that are all the recorded score
`0.0`: nothing is removed. -/
theorem pyFilterNotNone_all_some (vs : List (Option ℚ)) (hv : ∀ v ∈ vs, v = some 0) :
    pyFilterNotNone vs = List.replicate vs.length 0 := by
  induction vs with
  | nil => rfl
  | cons v rest ih =>
    have hv0 : v = some 0 := hv v (List.mem_cons_self _ _)
    have hrest : ∀ w ∈ rest, w = some 0 := fun w hw => hv w (List.mem_cons_of_mem _ hw)
    subst hv0
    show pyFilterNotNone (some 0 :: rest) = List.replicate (rest.length + 1) 0
    rw [List.replicate_succ]
    simp only [pyFilterNotNone, List.filterMap_cons, id]
    rw [← ih hrest]
    rfl

/-- C10: a recorded score of `0.0` is present, not absent — the sample filter
of `calculate_scores` removes only `None`, so a series whose accessibility
samples are all `0.0` loses nothing to the filter and still gets
`max_accessibility` and `average_accessibility` computed (both 0), rather
than having them omitted. -/
theorem C10_zero_scores_present (latest : Nat) (extracted : Extracted)
    (data : Nat → Option Snapshot) (calcs : Calcs)
    (hall : ∀ p ∈ extracted.accessibility, p.2 = some 0)
    (hne : extracted.accessibility ≠ [])
    (h : calculate_scores latest extracted data = Except.ok calcs) :
    (pyFilterNotNone (extracted.accessibility.map Prod.snd)).length =
      extracted.accessibility.length ∧
    calcs.max_accessibility = some 0 ∧ calcs.average_accessibility = some 0 := by
  have hv : ∀ v ∈ extracted.accessibility.map Prod.snd, v = some 0 := by
    intro v hvmem
    obtain ⟨p, hp, rfl⟩ := List.mem_map.mp hvmem
    exact hall p hp
  have hflt := pyFilterNotNone_all_some _ hv
  have hlen : (extracted.accessibility.map Prod.snd).length =
      extracted.accessibility.length := List.length_map _ _
  have hlenpos : 0 < extracted.accessibility.length := List.length_pos.mpr hne
  cases hdata : data latest with
  | none =>
    exfalso
    have hpos : 0 < (pyFilterNotNone (extracted.accessibility.map Prod.snd)).length := by
      rw [hflt, List.length_replicate, hlen]
      exact hlenpos
    have herr : calculate_scores latest extracted data =
        Except.error (PyErr.nameError "url") := by
      simp [calculate_scores, calc_step_acc, hdata, hpos]
    rw [herr] at h
    cases h
  | some snap =>
    rw [calculate_scores_ok latest extracted data snap hdata] at h
    injection h with h
    obtain ⟨n, hn⟩ : ∃ n, extracted.accessibility.length = n + 1 :=
      ⟨extracted.accessibility.length - 1, by omega⟩
    have haccs : pyFilterNotNone (extracted.accessibility.map Prod.snd) =
        List.replicate (n + 1) 0 := by
      rw [hflt, hlen, hn]
    have hne2 : pyFilterNotNone (extracted.accessibility.map Prod.snd) ≠ [] := by
      rw [haccs]
      simp
    have hmax : pymax (pyFilterNotNone (extracted.accessibility.map Prod.snd)) = some 0 := by
      rw [haccs, List.replicate_succ]
      obtain ⟨M, hM, hMmem, _⟩ := pymax_spec 0 (List.replicate n 0)
      have hM0 : M = 0 := by
        rcases List.mem_cons.mp hMmem with h0 | h0
        · exact h0
        · exact List.eq_of_mem_replicate h0
      rw [hM, hM0]
    have hmean : pymean (pyFilterNotNone (extracted.accessibility.map Prod.snd)) = 0 := by
      rw [haccs, pymean]
      simp
    refine ⟨?_, ?_, ?_⟩
    · rw [hflt, List.length_replicate, hlen]
    · rw [← h]
      exact hmax
    · rw [← h]
      show (if pyFilterNotNone (extracted.accessibility.map Prod.snd) = [] then none
            else some (pymean (pyFilterNotNone (extracted.accessibility.map Prod.snd)))) = some 0
      rw [if_neg hne2, hmean]

/-- C10 witness: a single accessibility sample with recorded score `0.0`. -/
theorem C10_zero_scores_present_witness :
    (pyFilterNotNone (([((0 : Nat), some (0 : ℚ))]).map Prod.snd)).length =
      ([((0 : Nat), some (0 : ℚ))]).length ∧
    ({ max_accessibility := some 0, average_accessibility := some (pymean [0]),
       current_accessibility := some (some 0) } : Calcs).max_accessibility = some 0 ∧
    ({ max_accessibility := some 0, average_accessibility := some (pymean [0]),
       current_accessibility := some (some 0) } : Calcs).average_accessibility = some 0 :=
  C10_zero_scores_present 0 { accessibility := [(0, some 0)], speed := [] }
    (fun _ => some { accessibility := some 0, speed := none })
    { max_accessibility := some 0, average_accessibility := some (pymean [0]),
      current_accessibility := some (some 0) }
    (by intro p hp; simp at hp; rw [hp]) (by decide) rfl
